import Mathlib

/-!
Shallow embedding of the ALB ingress controller's listener reconciler
(`pkg/alb/ls/listener.go`).

Modelling conventions:
- Go pointer fields (`*string`, `*int64`, `*elbv2.Listener`) become `Option`;
  `reflect.DeepEqual` over such fields becomes structural equality on the
  translated values.  Go nil slices and empty slices are identified.
- The global control-plane client `albelbv2.ELBV2svc` becomes an explicit
  `ControlPlane` record of the three operations the file uses, passed in as
  an argument.
- A reconciler operation returns `Option StepResult`: `none` models a Go
  run-time fault (nil-pointer dereference or out-of-range index reached on
  that path), `some r` carries the post-state, the list of control-plane
  calls issued, the events emitted, and the returned error (if any).
- Event and log message formatting (and the pointer dereferences that occur
  only inside those format arguments) is outside the model; an event is
  recorded as its severity and reason string.
-/

namespace AlbLs

/-- Certificate reference, mirroring the `elbv2.Certificate` shape used by
the source (field `CertificateArn *string`). -/
structure Certificate where
  certificateArn : Option String
  deriving DecidableEq, Repr

/-- Listener default action, mirroring the `elbv2.Action` fields used by the
source: `Type *string` (written `typ` here, `type` being reserved) and
`TargetGroupArn *string`. -/
structure Action where
  typ : Option String
  targetGroupArn : Option String
  deriving DecidableEq, Repr

/-- Listener snapshot, mirroring the `elbv2.Listener` fields used by the
source: `ListenerArn`, `LoadBalancerArn`, `Port`, `Protocol`,
`Certificates`, `SslPolicy`, `DefaultActions`. -/
structure ElbListener where
  listenerArn : Option String
  loadBalancerArn : Option String
  port : Option Int
  protocol : Option String
  certificates : List Certificate
  sslPolicy : Option String
  defaultActions : List Action
  deriving DecidableEq, Repr

/-- Target-group lookup table: logical name to ARN, per the options' field
`TargetGroups` (spec section 6: "a lookup table from target-group logical
name to opaque ARN"). -/
abbrev TargetGroups := List (String × String)

/-- Modelled from the spec: the routing-rules collaborator's rule type is not
in the shown source; per section 6 a rule exposes
`TargetGroupArn(lookup-table) -> optional ARN`, modelled as a function
field. -/
structure Rule where
  targetGroupArn : TargetGroups → Option String

/-- Modelled from the spec: the rules collection type `rs.Rules` is not in
the shown source; the reconciler consults it only through `DefaultRule()`,
which may yield no rule. -/
structure Rules where
  defaultRule : Option Rule

/-- Go embedded pair `ls` holding the two snapshots (`current`, `desired`),
each a possibly-nil pointer. -/
structure ls where
  current : Option ElbListener
  desired : Option ElbListener

/-- Modelled from the spec: the `Listener` struct declaration is not in the
shown source (only its methods are); per section 3 it owns the snapshot
pair, the rules collection and the `deleted` flag.  The logger is purely
observational and omitted. -/
structure Listener where
  ls : ls
  rules : Rules
  deleted : Bool

/-- Options for `NewDesiredListener`: port/scheme descriptor, optional
certificate ARN, optional SSL policy (logger omitted). -/
structure PortData where
  port : Int
  scheme : String
  deriving DecidableEq, Repr

structure NewDesiredListenerOptions where
  port : PortData
  certificateArn : Option String
  sslPolicy : Option String

/-- Modelled from the spec: `ReconcileOptions` is not in the shown source;
per sections 4.1 and 6 it carries the load balancer's identifier, the
target-group lookup table, and an event sink (the sink is modelled by
recording emitted events in the result). -/
structure ReconcileOptions where
  loadBalancerArn : Option String
  targetGroups : TargetGroups

/-- Request shape of `elbv2.CreateListenerInput` as populated by `create`. -/
structure CreateListenerInput where
  certificates : List Certificate
  loadBalancerArn : Option String
  protocol : Option String
  port : Option Int
  sslPolicy : Option String
  defaultActions : List Action
  deriving DecidableEq, Repr

/-- Request shape of `elbv2.ModifyListenerInput` as populated by `modify`. -/
structure ModifyListenerInput where
  listenerArn : Option String
  certificates : List Certificate
  port : Option Int
  protocol : Option String
  sslPolicy : Option String
  defaultActions : List Action
  deriving DecidableEq, Repr

/-- Modelled from the spec: the control-plane client (section 6) has three
operations; create and modify return the echoed resource snapshot or an
error, remove returns an optional error.  Errors are opaque strings. -/
structure ControlPlane where
  createListener : CreateListenerInput → Except String ElbListener
  modifyListener : ModifyListenerInput → Except String ElbListener
  removeListener : Option String → Option String

/-- One control-plane call, as recorded in a step's trace. -/
inductive CPCall where
  | createCall : CreateListenerInput → CPCall
  | modifyCall : ModifyListenerInput → CPCall
  | removeCall : Option String → CPCall
  deriving DecidableEq, Repr

inductive EventSeverity where
  | normal
  | warning
  deriving DecidableEq, Repr

/-- An emitted event: severity plus reason string ("CREATE", "DELETE",
"MODIFY", "ERROR"); the formatted message is outside the model. -/
structure Event where
  severity : EventSeverity
  reason : String
  deriving DecidableEq, Repr

/-- Result of one reconciler operation: post-state, the control-plane calls
issued, the events emitted, and the returned error (`none` for a nil
return). -/
structure StepResult where
  state : Listener
  calls : List CPCall
  events : List Event
  err : Option String

/-- One emitted event at the given severity and reason. -/
def mkEvent (sev : EventSeverity) (reason : String) : Event :=
  { severity := sev, reason := reason }

/-- NewDesiredListener (listener.go lines 22–50): builds the desired
snapshot with protocol HTTP, one forward default action; attaches the
certificate and upgrades to HTTPS when a certificate ARN is given and the
scheme is HTTPS; attaches the SSL policy when one is given and the scheme
is HTTPS. -/
def NewDesiredListener (o : NewDesiredListenerOptions) : Listener :=
  let listener0 : ElbListener :=
    { listenerArn := none
      loadBalancerArn := none
      port := some o.port.port
      protocol := some "HTTP"
      certificates := []
      sslPolicy := none
      defaultActions := [{ typ := some "forward", targetGroupArn := none }] }
  let listener1 :=
    if o.certificateArn.isSome ∧ o.port.scheme = "HTTPS" then
      { listener0 with
          certificates := [{ certificateArn := o.certificateArn }]
          protocol := some "HTTPS" }
    else listener0
  let listener2 :=
    if o.sslPolicy.isSome ∧ o.port.scheme = "HTTPS" then
      { listener1 with sslPolicy := o.sslPolicy }
    else listener1
  { ls := { current := none, desired := some listener2 }
    rules := { defaultRule := none }
    deleted := false }

/-- NewCurrentListener (listener.go lines 58–63): wraps a fetched snapshot
as the current side. -/
def NewCurrentListener (listener : ElbListener) : Listener :=
  { ls := { current := some listener, desired := none }
    rules := { defaultRule := none }
    deleted := false }

/-- create (listener.go lines 108–141).  Writes the load-balancer ARN into
the desired snapshot, resolves the default action's target-group ARN from
the rules collection's default rule (when one exists), issues the create
request, and on success replaces `current` with the echoed snapshot.
`none` models the nil dereference of a nil `desired` and the out-of-range
index on an empty `DefaultActions`. -/
def Listener.create (l : Listener) (cp : ControlPlane) (rOpts : ReconcileOptions) :
    Option StepResult :=
  match l.ls.desired with
  | none => none
  | some d0 =>
    let d1 := { d0 with loadBalancerArn := rOpts.loadBalancerArn }
    let d2 :=
      match l.rules.defaultRule, d1.defaultActions with
      | some dr, a :: rest =>
        { d1 with defaultActions :=
            { a with targetGroupArn := dr.targetGroupArn rOpts.targetGroups } :: rest }
      | _, _ => d1
    match d2.defaultActions with
    | [] => none
    | a :: _ =>
      let li : Listener := { l with ls := { l.ls with desired := some d2 } }
      let inp : CreateListenerInput :=
        { certificates := d2.certificates
          loadBalancerArn := d2.loadBalancerArn
          protocol := d2.protocol
          port := d2.port
          sslPolicy := d2.sslPolicy
          defaultActions := [{ typ := a.typ, targetGroupArn := a.targetGroupArn }] }
      match cp.createListener inp with
      | Except.error e =>
        some { state := li
               calls := [CPCall.createCall inp]
               events := [mkEvent EventSeverity.warning "ERROR"]
               err := some e }
      | Except.ok out =>
        some { state := { li with ls := { li.ls with current := some out } }
               calls := [CPCall.createCall inp]
               events := []
               err := none }

/-- modify (listener.go lines 144–170).  With no current snapshot it
delegates to create; otherwise it issues a modify request addressed by
current's ARN carrying the desired field set, and on success replaces
`current` with the echoed snapshot.  `none` models the nil dereference of a
nil `desired`. -/
def Listener.modify (l : Listener) (cp : ControlPlane) (rOpts : ReconcileOptions) :
    Option StepResult :=
  match l.ls.current with
  | none => l.create cp rOpts
  | some c =>
    match l.ls.desired with
    | none => none
    | some d =>
      let inp : ModifyListenerInput :=
        { listenerArn := c.listenerArn
          certificates := d.certificates
          port := d.port
          protocol := d.protocol
          sslPolicy := d.sslPolicy
          defaultActions := d.defaultActions }
      match cp.modifyListener inp with
      | Except.error e =>
        some { state := l
               calls := [CPCall.modifyCall inp]
               events := [mkEvent EventSeverity.warning "ERROR"]
               err := some e }
      | Except.ok out =>
        some { state := { l with ls := { l.ls with current := some out } }
               calls := [CPCall.modifyCall inp]
               events := []
               err := none }

/-- delete (listener.go lines 173–183).  Issues the remove request addressed
by current's ARN; on success sets `deleted := true`.  `none` models the nil
dereference of a nil `current`. -/
def Listener.delete (l : Listener) (cp : ControlPlane) (rOpts : ReconcileOptions) :
    Option StepResult :=
  match l.ls.current with
  | none => none
  | some c =>
    match cp.removeListener c.listenerArn with
    | some e =>
      some { state := l
             calls := [CPCall.removeCall c.listenerArn]
             events := [mkEvent EventSeverity.warning "ERROR"]
             err := some e }
    | none =>
      some { state := { l with deleted := true }
             calls := [CPCall.removeCall c.listenerArn]
             events := []
             err := none }

/-- Resolution step of needsModification (listener.go lines 191–197): with
non-nil options and a default rule, writes the freshly resolved
target-group ARN into `desired.DefaultActions[0]` in place.  `none` models
the nil dereference of a nil `desired` and the out-of-range index on an
empty `DefaultActions`, both reached before the function's nil checks. -/
def Listener.needsModResolve (l : Listener) (rOpts : Option ReconcileOptions) :
    Option Listener :=
  match rOpts with
  | none => some l
  | some o =>
    match l.rules.defaultRule with
    | none => some l
    | some dr =>
      match l.ls.desired with
      | none => none
      | some d =>
        match d.defaultActions with
        | [] => none
        | a :: rest =>
          let a2 : Action := { a with targetGroupArn := dr.targetGroupArn o.targetGroups }
          let d2 : ElbListener := { d with defaultActions := a2 :: rest }
          some { l with ls := { l.ls with desired := some d2 } }

/-- Comparison step of needsModification (listener.go lines 199–221): the
switch cascading through the nil checks and the five field comparisons
(port, protocol, certificates, default actions, SSL policy).  `none` models
the nil dereference of `lsd.Port` when current is present and desired is
nil. -/
def Listener.needsModCompare (li : Listener) : Option (Listener × Bool) :=
  match li.ls.current, li.ls.desired with
  | none, none => some (li, false)
  | none, some _ => some (li, true)
  | some _, none => none
  | some c, some d =>
    if c.port ≠ d.port then some (li, true)
    else if c.protocol ≠ d.protocol then some (li, true)
    else if c.certificates ≠ d.certificates then some (li, true)
    else if c.defaultActions ≠ d.defaultActions then some (li, true)
    else if c.sslPolicy ≠ d.sslPolicy then some (li, true)
    else some (li, false)

/-- needsModification (listener.go lines 187–222): the resolution step
followed by the comparison switch.  The result pairs the (possibly
mutated) listener with the boolean. -/
def Listener.needsModification (l : Listener) (rOpts : Option ReconcileOptions) :
    Option (Listener × Bool) :=
  match l.needsModResolve rOpts with
  | none => none
  | some li => li.needsModCompare

/-- Reconcile (listener.go lines 68–105): classifies the pair in the
source's switch order — desired nil (delete, or no-op when current is also
nil), then current nil (create), then the diff (modify), else no-op — and
performs at most one action.  On success of an action a normal-severity
event is appended; on failure the error is returned as is. -/
def Listener.Reconcile (l : Listener) (cp : ControlPlane) (rOpts : ReconcileOptions) :
    Option StepResult :=
  match l.ls.desired, l.ls.current with
  | none, none => some { state := l, calls := [], events := [], err := none }
  | none, some _ =>
    match l.delete cp rOpts with
    | none => none
    | some r =>
      match r.err with
      | some _ => some r
      | none =>
        some { r with events := r.events ++ [mkEvent EventSeverity.normal "DELETE"] }
  | some _, none =>
    match l.create cp rOpts with
    | none => none
    | some r =>
      match r.err with
      | some _ => some r
      | none =>
        some { r with events := r.events ++ [mkEvent EventSeverity.normal "CREATE"] }
  | some _, some _ =>
    match l.needsModification (some rOpts) with
    | none => none
    | some (li, true) =>
      match li.modify cp rOpts with
      | none => none
      | some r =>
        match r.err with
        | some _ => some r
        | none =>
          some { r with events := r.events ++ [mkEvent EventSeverity.normal "MODIFY"] }
    | some (li, false) => some { state := li, calls := [], events := [], err := none }

/-- StripDesiredState (listener.go lines 225–228); the cascade into the
rules collection is modelled as clearing nothing there, the rules model
being interface-only. -/
def Listener.StripDesiredState (l : Listener) : Listener :=
  { l with ls := { l.ls with desired := none } }

/-- stripCurrentState (listener.go lines 231–234). -/
def Listener.stripCurrentState (l : Listener) : Listener :=
  { l with ls := { l.ls with current := none } }

/-- Abstract action kind selected by the classification (spec section 4.1
priority table). -/
inductive RAction where
  | noop
  | createA
  | modifyA
  | deleteA
  deriving DecidableEq, Repr

/-- The priority-ordered classification of spec section 4.1: desired absent
first (delete, or no-op when current is also absent), then current absent
(create), then the diff (modify), else no-op. -/
def classifyStep (current desired : Option ElbListener) (needsMod : Bool) : RAction :=
  match desired with
  | none =>
    match current with
    | none => RAction.noop
    | some _ => RAction.deleteA
  | some _ =>
    match current with
    | none => RAction.createA
    | some _ => if needsMod then RAction.modifyA else RAction.noop

/-- Kind of action a call trace witnesses (empty trace: no-op). -/
def callsAction : List CPCall → RAction
  | [] => RAction.noop
  | CPCall.createCall _ :: _ => RAction.createA
  | CPCall.modifyCall _ :: _ => RAction.modifyA
  | CPCall.removeCall _ :: _ => RAction.deleteA

/-! ### Concrete fixtures for witnesses and counterexamples -/

/-- A control plane on which every call fails with error "boom". -/
def cpFail : ControlPlane :=
  { createListener := fun _ => Except.error "boom"
    modifyListener := fun _ => Except.error "boom"
    removeListener := fun _ => some "boom" }

/-- A control plane that succeeds, echoing the request back with the
assigned ARN "arn-new". -/
def cpEcho : ControlPlane :=
  { createListener := fun inp => Except.ok
      { listenerArn := some "arn-new"
        loadBalancerArn := inp.loadBalancerArn
        port := inp.port
        protocol := inp.protocol
        certificates := inp.certificates
        sslPolicy := inp.sslPolicy
        defaultActions := inp.defaultActions }
    modifyListener := fun inp => Except.ok
      { listenerArn := inp.listenerArn
        loadBalancerArn := none
        port := inp.port
        protocol := inp.protocol
        certificates := inp.certificates
        sslPolicy := inp.sslPolicy
        defaultActions := inp.defaultActions }
    removeListener := fun _ => none }

/-- Reconcile options used by the concrete scenarios. -/
def optsW : ReconcileOptions :=
  { loadBalancerArn := some "lb-arn", targetGroups := [("svc", "tg-arn")] }

/-- A listener holding neither snapshot. -/
def emptyListener : Listener :=
  { ls := { current := none, desired := none }
    rules := { defaultRule := none }
    deleted := false }

/-- The single forward default action with no target group, as built by
NewDesiredListener. -/
def forwardAction : Action := { typ := some "forward", targetGroupArn := none }

/-- A plain HTTP desired snapshot on port 80. -/
def desiredHTTP : ElbListener :=
  { listenerArn := none, loadBalancerArn := none, port := some 80,
    protocol := some "HTTP", certificates := [], sslPolicy := none,
    defaultActions := [forwardAction] }

/-- A listener holding only the desired snapshot. -/
def lDesiredOnly : Listener :=
  { ls := { current := none, desired := some desiredHTTP },
    rules := { defaultRule := none }, deleted := false }

/-- HTTPS current snapshot used by the diff scenarios. -/
def c3c : ElbListener :=
  { listenerArn := some "arn-old", loadBalancerArn := some "lb-arn", port := some 443,
    protocol := some "HTTPS", certificates := [{ certificateArn := some "cert-1" }],
    sslPolicy := none, defaultActions := [forwardAction] }

/-- Desired snapshot equal to `c3c` except for the SSL policy. -/
def c3d : ElbListener := { c3c with sslPolicy := some "ELBSecurityPolicy-2016-08" }

/-- A listener whose snapshots differ only in the SSL policy. -/
def lDiff : Listener :=
  { ls := { current := some c3c, desired := some c3d },
    rules := { defaultRule := none }, deleted := false }

/-- Result of a failing modify on `lDiff`. -/
def rModFail : StepResult :=
  (lDiff.modify cpFail optsW).getD { state := lDiff, calls := [], events := [], err := none }

/-- HTTPS desired snapshot (port 443, one certificate), per the spec's
create scenario. -/
def c4d : ElbListener :=
  { listenerArn := none, loadBalancerArn := none, port := some 443,
    protocol := some "HTTPS", certificates := [{ certificateArn := some "cert-1" }],
    sslPolicy := none, defaultActions := [forwardAction] }

def lC4 : Listener :=
  { ls := { current := none, desired := some c4d },
    rules := { defaultRule := none }, deleted := false }

/-- Result of a successful create on `lC4` against the echoing control
plane. -/
def rC4 : StepResult :=
  (lC4.create cpEcho optsW).getD { state := lC4, calls := [], events := [], err := none }

/-- The snapshot the echoing control plane returns for `lC4`'s create. -/
def c4out : ElbListener :=
  { listenerArn := some "arn-new", loadBalancerArn := some "lb-arn", port := some 443,
    protocol := some "HTTPS", certificates := [{ certificateArn := some "cert-1" }],
    sslPolicy := none, defaultActions := [forwardAction] }

/-- Constructor options with an SSL policy but no certificate on an HTTPS
scheme. -/
def c5o : NewDesiredListenerOptions :=
  { port := { port := 443, scheme := "HTTPS" },
    certificateArn := none,
    sslPolicy := some "ELBSecurityPolicy-2016-08" }

/-- A default rule resolving the target group named "svc" through the
lookup table. -/
def drW : Rule := { targetGroupArn := fun tgs => tgs.lookup "svc" }

/-- Current snapshot whose default action points at a stale target group. -/
def c8c : ElbListener :=
  { desiredHTTP with
      listenerArn := some "arn-old"
      defaultActions := [{ typ := some "forward", targetGroupArn := some "tg-old" }] }

def lC8 : Listener :=
  { ls := { current := some c8c, desired := some desiredHTTP },
    rules := { defaultRule := some drW }, deleted := false }

/-- The desired snapshot after the target-group ARN has been resolved. -/
def resolvedDesired : ElbListener :=
  { desiredHTTP with
    defaultActions := [{ typ := some "forward", targetGroupArn := some "tg-arn" }] }

def lC8res : Listener :=
  { lC8 with ls := { lC8.ls with desired := some resolvedDesired } }

/-- Current snapshot already matching the resolved target group. -/
def c9c : ElbListener :=
  { desiredHTTP with
      listenerArn := some "arn-old"
      loadBalancerArn := some "lb-arn"
      defaultActions := [{ typ := some "forward", targetGroupArn := some "tg-arn" }] }

def lC9 : Listener :=
  { ls := { current := some c9c, desired := some desiredHTTP },
    rules := { defaultRule := some drW }, deleted := false }

def lC9res : Listener :=
  { lC9 with ls := { lC9.ls with desired := some resolvedDesired } }

/-- A desired snapshot with an empty default-action list. -/
def c10d : ElbListener := { desiredHTTP with defaultActions := [] }

/-- A listener state on which Reconcile reaches the needsModification
dereference with an empty default-action list and a default rule present. -/
def lC10 : Listener :=
  { ls := { current := some c8c, desired := some c10d },
    rules := { defaultRule := some drW }, deleted := false }

/-- Result of a successful delete on a current-only listener. -/
def rDel : StepResult :=
  ((NewCurrentListener c3c).delete cpEcho optsW).getD
    { state := NewCurrentListener c3c, calls := [], events := [], err := none }

/-! ### Helper lemmas -/

/-- The resolution step never changes the current snapshot, the rules or
the deleted flag. -/
theorem needsModResolve_pres {l li : Listener} {ro : Option ReconcileOptions}
    (h : l.needsModResolve ro = some li) :
    li.ls.current = l.ls.current ∧ li.rules = l.rules ∧ li.deleted = l.deleted := by
  unfold Listener.needsModResolve at h
  split at h
  · injection h with h; subst h; exact ⟨rfl, rfl, rfl⟩
  · split at h
    · injection h with h; subst h; exact ⟨rfl, rfl, rfl⟩
    · split at h
      · exact Option.noConfusion h
      · split at h
        · exact Option.noConfusion h
        · injection h with h; subst h; exact ⟨rfl, rfl, rfl⟩

/-- The comparison step returns the listener it was given. -/
theorem needsModCompare_fst {li li2 : Listener} {b : Bool}
    (h : li.needsModCompare = some (li2, b)) : li2 = li := by
  unfold Listener.needsModCompare at h
  split at h <;>
    first
      | exact Option.noConfusion h
      | ((repeat' split at h) <;>
          (injection h with h; exact (congrArg Prod.fst h).symm))

/-- A defined needsModification call factors into a resolution returning the
result listener followed by the comparison on it. -/
theorem needsMod_decomp {l li : Listener} {ro : Option ReconcileOptions} {b : Bool}
    (h : l.needsModification ro = some (li, b)) :
    l.needsModResolve ro = some li ∧ li.needsModCompare = some (li, b) := by
  unfold Listener.needsModification at h
  split at h
  · exact Option.noConfusion h
  · rename_i li0 hres
    have := needsModCompare_fst h
    subst this
    exact ⟨hres, h⟩

/-- needsModification never changes the current snapshot, the rules or the
deleted flag. -/
theorem needsMod_pres {l li : Listener} {ro : Option ReconcileOptions} {b : Bool}
    (h : l.needsModification ro = some (li, b)) :
    li.ls.current = l.ls.current ∧ li.rules = l.rules ∧ li.deleted = l.deleted :=
  needsModResolve_pres (needsMod_decomp h).1

/-- A defined create issues exactly one create call. -/
theorem create_calls_shape {l : Listener} {cp : ControlPlane} {o : ReconcileOptions}
    {r : StepResult} (h : l.create cp o = some r) :
    ∃ inp, r.calls = [CPCall.createCall inp] := by
  simp only [Listener.create] at h
  split at h
  · exact Option.noConfusion h
  · split at h
    · exact Option.noConfusion h
    · split at h <;> (injection h with h; subst h; exact ⟨_, rfl⟩)

/-- A defined modify on a present current snapshot issues exactly one modify
call. -/
theorem modify_calls_shape {l : Listener} {cp : ControlPlane} {o : ReconcileOptions}
    {c : ElbListener} {r : StepResult} (hc : l.ls.current = some c)
    (h : l.modify cp o = some r) :
    ∃ inp, r.calls = [CPCall.modifyCall inp] := by
  simp only [Listener.modify, hc] at h
  split at h
  · exact Option.noConfusion h
  · split at h <;> (injection h with h; subst h; exact ⟨_, rfl⟩)

/-- A defined delete issues exactly one remove call. -/
theorem delete_calls_shape {l : Listener} {cp : ControlPlane} {o : ReconcileOptions}
    {r : StepResult} (h : l.delete cp o = some r) :
    ∃ arn, r.calls = [CPCall.removeCall arn] := by
  simp only [Listener.delete] at h
  split at h
  · exact Option.noConfusion h
  · split at h <;> (injection h with h; subst h; exact ⟨_, rfl⟩)

/-! ### Case lemmas for the Reconcile classification -/

theorem noopCaseSpec (l : Listener) (o : ReconcileOptions) (r : StepResult)
    (hd : l.ls.desired = none) (hc : l.ls.current = none)
    (hr : r = { state := l, calls := [], events := [], err := none }) :
    r.calls.length ≤ 1 ∧
    (l.ls.desired = none → l.ls.current = none →
      r = { state := l, calls := [], events := [], err := none }) ∧
    (l.ls.desired = none → ∀ c ∈ r.calls, ∃ arn, c = CPCall.removeCall arn) ∧
    (l.ls.current = none → l.ls.desired ≠ none →
      ∀ c ∈ r.calls, ∃ inp, c = CPCall.createCall inp) ∧
    (l.ls.current ≠ none → l.ls.desired ≠ none →
      ∀ c ∈ r.calls, ∃ inp, c = CPCall.modifyCall inp) ∧
    (∀ li b, l.needsModification (some o) = some (li, b) →
      callsAction r.calls = classifyStep l.ls.current l.ls.desired b) := by
  subst hr
  refine ⟨by simp, fun _ _ => rfl, ?_, ?_, ?_, ?_⟩
  · intro _ c hcm; simp at hcm
  · intro _ hdes; exact absurd hd hdes
  · intro _ hdes; exact absurd hd hdes
  · intro li b _; simp [classifyStep, callsAction, hd, hc]

theorem deleteCaseSpec (l : Listener) (o : ReconcileOptions) (r : StepResult)
    (cval : ElbListener) (arn : Option String)
    (hd : l.ls.desired = none) (hc : l.ls.current = some cval)
    (hrc : r.calls = [CPCall.removeCall arn]) :
    r.calls.length ≤ 1 ∧
    (l.ls.desired = none → l.ls.current = none →
      r = { state := l, calls := [], events := [], err := none }) ∧
    (l.ls.desired = none → ∀ c ∈ r.calls, ∃ arn, c = CPCall.removeCall arn) ∧
    (l.ls.current = none → l.ls.desired ≠ none →
      ∀ c ∈ r.calls, ∃ inp, c = CPCall.createCall inp) ∧
    (l.ls.current ≠ none → l.ls.desired ≠ none →
      ∀ c ∈ r.calls, ∃ inp, c = CPCall.modifyCall inp) ∧
    (∀ li b, l.needsModification (some o) = some (li, b) →
      callsAction r.calls = classifyStep l.ls.current l.ls.desired b) := by
  refine ⟨by simp [hrc], ?_, ?_, ?_, ?_, ?_⟩
  · intro _ hcn; rw [hc] at hcn; exact Option.noConfusion hcn
  · intro _ c hcm; rw [hrc] at hcm; simp at hcm; exact ⟨arn, hcm⟩
  · intro hcn _; rw [hc] at hcn; exact Option.noConfusion hcn
  · intro _ hdes; exact absurd hd hdes
  · intro li b _; simp [classifyStep, callsAction, hd, hc, hrc]

theorem createCaseSpec (l : Listener) (o : ReconcileOptions) (r : StepResult)
    (dval : ElbListener) (inp : CreateListenerInput)
    (hd : l.ls.desired = some dval) (hc : l.ls.current = none)
    (hrc : r.calls = [CPCall.createCall inp]) :
    r.calls.length ≤ 1 ∧
    (l.ls.desired = none → l.ls.current = none →
      r = { state := l, calls := [], events := [], err := none }) ∧
    (l.ls.desired = none → ∀ c ∈ r.calls, ∃ arn, c = CPCall.removeCall arn) ∧
    (l.ls.current = none → l.ls.desired ≠ none →
      ∀ c ∈ r.calls, ∃ inp, c = CPCall.createCall inp) ∧
    (l.ls.current ≠ none → l.ls.desired ≠ none →
      ∀ c ∈ r.calls, ∃ inp, c = CPCall.modifyCall inp) ∧
    (∀ li b, l.needsModification (some o) = some (li, b) →
      callsAction r.calls = classifyStep l.ls.current l.ls.desired b) := by
  refine ⟨by simp [hrc], ?_, ?_, ?_, ?_, ?_⟩
  · intro hdn _; rw [hd] at hdn; exact Option.noConfusion hdn
  · intro hdn; rw [hd] at hdn; exact Option.noConfusion hdn
  · intro _ _ c hcm; rw [hrc] at hcm; simp at hcm; exact ⟨inp, hcm⟩
  · intro hcur _; exact absurd hc hcur
  · intro li b _; simp [classifyStep, callsAction, hd, hc, hrc]

theorem modifyCaseSpec (l : Listener) (o : ReconcileOptions) (r : StepResult)
    (dval cval : ElbListener) (li : Listener) (inp : ModifyListenerInput)
    (hd : l.ls.desired = some dval) (hc : l.ls.current = some cval)
    (hnm : l.needsModification (some o) = some (li, true))
    (hrc : r.calls = [CPCall.modifyCall inp]) :
    r.calls.length ≤ 1 ∧
    (l.ls.desired = none → l.ls.current = none →
      r = { state := l, calls := [], events := [], err := none }) ∧
    (l.ls.desired = none → ∀ c ∈ r.calls, ∃ arn, c = CPCall.removeCall arn) ∧
    (l.ls.current = none → l.ls.desired ≠ none →
      ∀ c ∈ r.calls, ∃ inp, c = CPCall.createCall inp) ∧
    (l.ls.current ≠ none → l.ls.desired ≠ none →
      ∀ c ∈ r.calls, ∃ inp, c = CPCall.modifyCall inp) ∧
    (∀ li b, l.needsModification (some o) = some (li, b) →
      callsAction r.calls = classifyStep l.ls.current l.ls.desired b) := by
  refine ⟨by simp [hrc], ?_, ?_, ?_, ?_, ?_⟩
  · intro hdn _; rw [hd] at hdn; exact Option.noConfusion hdn
  · intro hdn; rw [hd] at hdn; exact Option.noConfusion hdn
  · intro hcn _; rw [hc] at hcn; exact Option.noConfusion hcn
  · intro _ _ c hcm; rw [hrc] at hcm; simp at hcm; exact ⟨inp, hcm⟩
  · intro li2 b2 hnm2
    rw [hnm] at hnm2
    injection hnm2 with hp
    have hb : b2 = true := (congrArg Prod.snd hp).symm
    subst hb
    simp [classifyStep, callsAction, hd, hc, hrc]

theorem noModCaseSpec (l : Listener) (o : ReconcileOptions) (r : StepResult)
    (dval cval : ElbListener) (li : Listener)
    (hd : l.ls.desired = some dval) (hc : l.ls.current = some cval)
    (hnm : l.needsModification (some o) = some (li, false))
    (hrc : r.calls = []) :
    r.calls.length ≤ 1 ∧
    (l.ls.desired = none → l.ls.current = none →
      r = { state := l, calls := [], events := [], err := none }) ∧
    (l.ls.desired = none → ∀ c ∈ r.calls, ∃ arn, c = CPCall.removeCall arn) ∧
    (l.ls.current = none → l.ls.desired ≠ none →
      ∀ c ∈ r.calls, ∃ inp, c = CPCall.createCall inp) ∧
    (l.ls.current ≠ none → l.ls.desired ≠ none →
      ∀ c ∈ r.calls, ∃ inp, c = CPCall.modifyCall inp) ∧
    (∀ li b, l.needsModification (some o) = some (li, b) →
      callsAction r.calls = classifyStep l.ls.current l.ls.desired b) := by
  refine ⟨by simp [hrc], ?_, ?_, ?_, ?_, ?_⟩
  · intro hdn _; rw [hd] at hdn; exact Option.noConfusion hdn
  · intro hdn; rw [hd] at hdn; exact Option.noConfusion hdn
  · intro hcn _; rw [hc] at hcn; exact Option.noConfusion hcn
  · intro _ _ c hcm; rw [hrc] at hcm; simp at hcm
  · intro li2 b2 hnm2
    rw [hnm] at hnm2
    injection hnm2 with hp
    have hb : b2 = false := (congrArg Prod.snd hp).symm
    subst hb
    simp [classifyStep, callsAction, hd, hc, hrc]

/-! ### Claim theorems -/

/-- C1: for every (current, desired) pair, a non-faulting Reconcile performs
at most one control-plane action; when both sides are absent it performs no
control-plane call, leaves the state unchanged and returns nil; when
desired is absent and current present only a remove call can be issued;
when current is absent and desired present only a create call; when both
are present only a modify call; and the kind of the issued call (no-op when
none) agrees with the strict priority classification of spec section 4.1
evaluated at the diff result. -/
theorem claim1_reconcile_one_action (l : Listener) (cp : ControlPlane)
    (o : ReconcileOptions) (r : StepResult) (h : l.Reconcile cp o = some r) :
    r.calls.length ≤ 1 ∧
    (l.ls.desired = none → l.ls.current = none →
      r = { state := l, calls := [], events := [], err := none }) ∧
    (l.ls.desired = none → ∀ c ∈ r.calls, ∃ arn, c = CPCall.removeCall arn) ∧
    (l.ls.current = none → l.ls.desired ≠ none →
      ∀ c ∈ r.calls, ∃ inp, c = CPCall.createCall inp) ∧
    (l.ls.current ≠ none → l.ls.desired ≠ none →
      ∀ c ∈ r.calls, ∃ inp, c = CPCall.modifyCall inp) ∧
    (∀ li b, l.needsModification (some o) = some (li, b) →
      callsAction r.calls = classifyStep l.ls.current l.ls.desired b) := by
  unfold Listener.Reconcile at h
  split at h
  · rename_i hd hc
    injection h with h
    exact noopCaseSpec l o r hd hc h.symm
  · rename_i cval hd hc
    split at h
    · exact Option.noConfusion h
    · rename_i r0 hdel
      obtain ⟨arn, hcalls⟩ := delete_calls_shape hdel
      split at h <;>
        (injection h with h; subst h; exact deleteCaseSpec l o _ cval arn hd hc hcalls)
  · rename_i dval hd hc
    split at h
    · exact Option.noConfusion h
    · rename_i r0 hcre
      obtain ⟨inp, hcalls⟩ := create_calls_shape hcre
      split at h <;>
        (injection h with h; subst h; exact createCaseSpec l o _ dval inp hd hc hcalls)
  · rename_i dval cval hd hc
    split at h
    · exact Option.noConfusion h
    · rename_i li hnm
      split at h
      · exact Option.noConfusion h
      · rename_i r0 hmod
        have hlic : li.ls.current = some cval := (needsMod_pres hnm).1.trans hc
        obtain ⟨inp, hcalls⟩ := modify_calls_shape hlic hmod
        split at h <;>
          (injection h with h; subst h;
           exact modifyCaseSpec l o _ dval cval li inp hd hc hnm hcalls)
    · rename_i li hnm
      injection h with h
      subst h
      exact noModCaseSpec l o _ dval cval li hd hc hnm rfl

theorem claim1_reconcile_one_action_witness :
    emptyListener.Reconcile cpFail optsW =
      some { state := emptyListener, calls := [], events := [], err := none } ∧
    ({ state := emptyListener, calls := [], events := [], err := none }
      : StepResult).calls.length ≤ 1 :=
  ⟨rfl, (claim1_reconcile_one_action emptyListener cpFail optsW _ rfl).1⟩

theorem create_err_spec {l : Listener} {cp : ControlPlane} {o : ReconcileOptions}
    {r : StepResult} {e : String} (h : l.create cp o = some r) (herr : r.err = some e) :
    r.state.ls.current = l.ls.current ∧ r.state.deleted = l.deleted ∧
    ∃ inp, cp.createListener inp = Except.error e ∧ r.calls = [CPCall.createCall inp] := by
  simp only [Listener.create] at h
  split at h
  · exact Option.noConfusion h
  · split at h
    · exact Option.noConfusion h
    · split at h
      · rename_i e0 hcp
        injection h with h; subst h
        injection herr with he; subst he
        exact ⟨rfl, rfl, _, hcp, rfl⟩
      · injection h with h; subst h
        exact Option.noConfusion herr

theorem modify_err_spec {l : Listener} {cp : ControlPlane} {o : ReconcileOptions}
    {r : StepResult} {e : String} (h : l.modify cp o = some r) (herr : r.err = some e) :
    r.state.ls.current = l.ls.current ∧ r.state.deleted = l.deleted ∧
    ((∃ inp, cp.modifyListener inp = Except.error e ∧ r.calls = [CPCall.modifyCall inp]) ∨
     (∃ inp, cp.createListener inp = Except.error e ∧ r.calls = [CPCall.createCall inp])) := by
  simp only [Listener.modify] at h
  split at h
  · have hs := create_err_spec h herr
    exact ⟨hs.1, hs.2.1, Or.inr hs.2.2⟩
  · split at h
    · exact Option.noConfusion h
    · split at h
      · rename_i e0 hcp
        injection h with h; subst h
        injection herr with he; subst he
        exact ⟨rfl, rfl, Or.inl ⟨_, hcp, rfl⟩⟩
      · injection h with h; subst h
        exact Option.noConfusion herr

theorem delete_err_spec {l : Listener} {cp : ControlPlane} {o : ReconcileOptions}
    {r : StepResult} {e : String} (h : l.delete cp o = some r) (herr : r.err = some e) :
    r.state = l ∧
    ∃ arn, cp.removeListener arn = some e ∧ r.calls = [CPCall.removeCall arn] := by
  simp only [Listener.delete] at h
  split at h
  · exact Option.noConfusion h
  · split at h
    · rename_i e0 hrm
      injection h with h; subst h
      injection herr with he; subst he
      exact ⟨rfl, _, hrm, rfl⟩
    · injection h with h; subst h
      exact Option.noConfusion herr

theorem compare_iff {li li2 : Listener} {b : Bool} {c d : ElbListener}
    (hc : li.ls.current = some c) (hd : li.ls.desired = some d)
    (hcomp : li.needsModCompare = some (li2, b)) :
    b = false ↔ (c.port = d.port ∧ c.protocol = d.protocol ∧
      c.certificates = d.certificates ∧ c.defaultActions = d.defaultActions ∧
      c.sslPolicy = d.sslPolicy) := by
  unfold Listener.needsModCompare at hcomp
  rw [hc, hd] at hcomp
  by_cases h1 : c.port = d.port <;>
    by_cases h2 : c.protocol = d.protocol <;>
      by_cases h3 : c.certificates = d.certificates <;>
        by_cases h4 : c.defaultActions = d.defaultActions <;>
          by_cases h5 : c.sslPolicy = d.sslPolicy <;>
            simp [h1, h2, h3, h4, h5] at hcomp ⊢ <;> simp [hcomp]

theorem resolve_writes {l : Listener} {o : ReconcileOptions} {dr : Rule}
    {d : ElbListener} {a : Action} {rest : List Action} {li : Listener}
    (hr : l.rules.defaultRule = some dr) (hd : l.ls.desired = some d)
    (ha : d.defaultActions = a :: rest)
    (hres : l.needsModResolve (some o) = some li) :
    li.ls.desired = some { d with defaultActions :=
      { a with targetGroupArn := dr.targetGroupArn o.targetGroups } :: rest } := by
  simp only [Listener.needsModResolve, hr, hd, ha] at hres
  injection hres with hres
  subst hres
  rfl

theorem resolve_desired_some {l li : Listener} {d : ElbListener}
    {ro : Option ReconcileOptions}
    (hd : l.ls.desired = some d) (hres : l.needsModResolve ro = some li) :
    ∃ d2, li.ls.desired = some d2 := by
  unfold Listener.needsModResolve at hres
  split at hres
  · injection hres with hres; subst hres; exact ⟨d, hd⟩
  · split at hres
    · injection hres with hres; subst hres; exact ⟨d, hd⟩
    · split at hres
      · exact Option.noConfusion hres
      · split at hres
        · exact Option.noConfusion hres
        · injection hres with hres; subst hres; exact ⟨_, rfl⟩

theorem create_ne_none {l : Listener} {cp : ControlPlane} {o : ReconcileOptions}
    {d : ElbListener} (hd : l.ls.desired = some d)
    (hact : d.defaultActions ≠ []) : l.create cp o ≠ none := by
  intro hnone
  cases hacts : d.defaultActions with
  | nil => exact hact hacts
  | cons a rest =>
    rcases hrule : l.rules.defaultRule with _ | dr <;>
      simp only [Listener.create, hd, hrule, hacts] at hnone <;>
        (split at hnone <;> exact Option.noConfusion hnone)

theorem modify_ne_none {l : Listener} {cp : ControlPlane} {o : ReconcileOptions}
    {cval d : ElbListener} (hc : l.ls.current = some cval)
    (hd : l.ls.desired = some d) : l.modify cp o ≠ none := by
  intro hnone
  simp only [Listener.modify, hc, hd] at hnone
  split at hnone <;> exact Option.noConfusion hnone

theorem resolve_ne_none {l : Listener} {o : ReconcileOptions} {d : ElbListener}
    (hd : l.ls.desired = some d) (hact : d.defaultActions ≠ []) :
    l.needsModResolve (some o) ≠ none := by
  intro hnone
  cases hacts : d.defaultActions with
  | nil => exact hact hacts
  | cons a rest =>
    rcases hrule : l.rules.defaultRule with _ | dr <;>
      simp only [Listener.needsModResolve, hd, hrule, hacts] at hnone <;>
        exact Option.noConfusion hnone

theorem needsMod_ne_none {l : Listener} {o : ReconcileOptions} {cval d : ElbListener}
    (hc : l.ls.current = some cval) (hd : l.ls.desired = some d)
    (hact : d.defaultActions ≠ []) : l.needsModification (some o) ≠ none := by
  intro hnone
  unfold Listener.needsModification at hnone
  split at hnone
  · rename_i hres
    exact resolve_ne_none hd hact hres
  · rename_i li hres
    have hlic := (needsModResolve_pres hres).1.trans hc
    obtain ⟨d2, hlid⟩ := resolve_desired_some hd hres
    simp only [Listener.needsModCompare, hlic, hlid] at hnone
    (repeat' split at hnone) <;> exact Option.noConfusion hnone

/-- C2 (amended): a failing create, modify or delete leaves `current` and
`deleted` at their pre-call values and returns the control-plane error
unchanged; delete additionally leaves the whole state unchanged.  (The
claim as frozen says the whole listener state is unchanged; create, and
modify delegating to create, still update the desired snapshot in place —
see the counterexample.) -/
theorem claim2_failure_preserves_core (l : Listener) (cp : ControlPlane) (o : ReconcileOptions) :
    (∀ r e, l.create cp o = some r → r.err = some e →
      r.state.ls.current = l.ls.current ∧ r.state.deleted = l.deleted ∧
      ∃ inp, cp.createListener inp = Except.error e ∧
        r.calls = [CPCall.createCall inp]) ∧
    (∀ r e, l.modify cp o = some r → r.err = some e →
      r.state.ls.current = l.ls.current ∧ r.state.deleted = l.deleted ∧
      ((∃ inp, cp.modifyListener inp = Except.error e ∧
          r.calls = [CPCall.modifyCall inp]) ∨
       (∃ inp, cp.createListener inp = Except.error e ∧
          r.calls = [CPCall.createCall inp]))) ∧
    (∀ r e, l.delete cp o = some r → r.err = some e →
      r.state = l ∧
      ∃ arn, cp.removeListener arn = some e ∧ r.calls = [CPCall.removeCall arn]) :=
  ⟨fun _ _ h herr => create_err_spec h herr,
   fun _ _ h herr => modify_err_spec h herr,
   fun _ _ h herr => delete_err_spec h herr⟩

/-- C2 counterexample: a failing create returns the error but has already
written the load-balancer ARN into the desired snapshot, so the listener
state is not unchanged. -/
theorem claim2_counterexample :
    ((lDesiredOnly.create cpFail optsW).map fun r => (r.err, r.state.ls.desired)) =
      some (some "boom", some { desiredHTTP with loadBalancerArn := some "lb-arn" }) ∧
    some { desiredHTTP with loadBalancerArn := some "lb-arn" } ≠
      lDesiredOnly.ls.desired := by
  constructor
  · rfl
  · decide

/-- C2 witness: the amended theorem applied to a concrete failing modify. -/
theorem claim2_failure_preserves_core_witness :
    rModFail.state.ls.current = lDiff.ls.current ∧
    rModFail.state.deleted = lDiff.deleted ∧ rModFail.err = some "boom" := by
  have h := (claim2_failure_preserves_core lDiff cpFail optsW).2.1 rModFail "boom" rfl rfl
  exact ⟨h.1, h.2.1, rfl⟩

/-- C3: for a defined needsModification call, on the pair it compares (both
snapshots present), the result is false iff port, protocol, certificate
list, default-action list and SSL policy are all equal; and with current
absent and desired present the result is true.  The desired side is the
one the function compares, i.e. after its in-place target-group
resolution. -/
theorem claim3_needsModification_diff (l : Listener) (ro : Option ReconcileOptions)
    (li : Listener) (b : Bool) (h : l.needsModification ro = some (li, b)) :
    (∀ c d, li.ls.current = some c → li.ls.desired = some d →
      (b = false ↔ (c.port = d.port ∧ c.protocol = d.protocol ∧
        c.certificates = d.certificates ∧ c.defaultActions = d.defaultActions ∧
        c.sslPolicy = d.sslPolicy))) ∧
    (li.ls.current = none → li.ls.desired ≠ none → b = true) := by
  have hcomp := (needsMod_decomp h).2
  constructor
  · intro c d hc hd
    exact compare_iff hc hd hcomp
  · intro hcn hdn
    unfold Listener.needsModCompare at hcomp
    rw [hcn] at hcomp
    cases hdd : li.ls.desired with
    | none => exact absurd hdd hdn
    | some d =>
      rw [hdd] at hcomp
      injection hcomp with hp
      exact (congrArg Prod.snd hp).symm

/-- C3 witness: on a pair differing only in SSL policy the function returns
true, and the five-field conjunction indeed fails. -/
theorem claim3_needsModification_diff_witness :
    lDiff.needsModification (some optsW) = some (lDiff, true) ∧
    ¬(c3c.port = c3d.port ∧ c3c.protocol = c3d.protocol ∧
      c3c.certificates = c3d.certificates ∧ c3c.defaultActions = c3d.defaultActions ∧
      c3c.sslPolicy = c3d.sslPolicy) :=
  ⟨rfl, fun hcj => Bool.noConfusion
    (((claim3_needsModification_diff lDiff (some optsW) lDiff true rfl).1 c3c c3d rfl rfl).2 hcj)⟩

/-- C4 (amended): a successful create replaces `current` with the snapshot
echoed by the control plane, which (for an echoing control plane) carries a
non-empty ARN and mirrors the desired port, protocol, certificates and SSL
policy; a failing create leaves `current` and `deleted` unchanged and
surfaces the control-plane error.  (The claim as frozen also says failure
leaves the whole state unchanged; the desired snapshot is still updated in
place — see the counterexample.) -/
theorem claim4_create_mirrors_desired (l : Listener) (cp : ControlPlane) (o : ReconcileOptions)
    (d : ElbListener) (r : StepResult)
    (hcur : l.ls.current = none) (hd : l.ls.desired = some d)
    (hecho : ∀ inp out, cp.createListener inp = Except.ok out →
      out.listenerArn ≠ none ∧ out.port = inp.port ∧ out.protocol = inp.protocol ∧
      out.certificates = inp.certificates ∧ out.sslPolicy = inp.sslPolicy)
    (h : l.create cp o = some r) :
    (r.err = none → ∃ out, r.state.ls.current = some out ∧ out.listenerArn ≠ none ∧
      out.port = d.port ∧ out.protocol = d.protocol ∧
      out.certificates = d.certificates ∧ out.sslPolicy = d.sslPolicy) ∧
    (∀ e, r.err = some e → r.state.ls.current = none ∧ r.state.deleted = l.deleted ∧
      ∃ inp, cp.createListener inp = Except.error e) := by
  rcases hrule : l.rules.defaultRule with _ | dr <;>
    rcases hacts : d.defaultActions with _ | ⟨a, rest⟩ <;>
      simp only [Listener.create, hd, hrule, hacts] at h
  case none.nil => exact Option.noConfusion h
  case none.cons =>
    split at h
    · rename_i e0 hcp
      injection h with h; subst h
      refine ⟨fun hok => Option.noConfusion hok, fun e herr => ?_⟩
      injection herr with he; subst he
      exact ⟨hcur, rfl, _, hcp⟩
    · rename_i out hcp
      injection h with h; subst h
      refine ⟨fun _ => ?_, fun e herr => Option.noConfusion herr⟩
      have hout := hecho _ _ hcp
      exact ⟨out, rfl, hout.1, hout.2.1, hout.2.2.1, hout.2.2.2.1, hout.2.2.2.2⟩
  case some.nil => exact Option.noConfusion h
  case some.cons =>
    split at h
    · rename_i e0 hcp
      injection h with h; subst h
      refine ⟨fun hok => Option.noConfusion hok, fun e herr => ?_⟩
      injection herr with he; subst he
      exact ⟨hcur, rfl, _, hcp⟩
    · rename_i out hcp
      injection h with h; subst h
      refine ⟨fun _ => ?_, fun e herr => Option.noConfusion herr⟩
      have hout := hecho _ _ hcp
      exact ⟨out, rfl, hout.1, hout.2.1, hout.2.2.1, hout.2.2.2.1, hout.2.2.2.2⟩

/-- C4 witness: a concrete successful create against the echoing control
plane populates current with the ARN-carrying echo of the desired
fields. -/
theorem claim4_create_mirrors_desired_witness :
    lC4.create cpEcho optsW = some rC4 ∧ rC4.err = none ∧
    rC4.state.ls.current = some c4out ∧ c4out.listenerArn ≠ none ∧
    c4out.port = c4d.port ∧ c4out.protocol = c4d.protocol ∧
    c4out.certificates = c4d.certificates ∧ c4out.sslPolicy = c4d.sslPolicy := by
  have hech : ∀ inp out, cpEcho.createListener inp = Except.ok out →
      out.listenerArn ≠ none ∧ out.port = inp.port ∧ out.protocol = inp.protocol ∧
      out.certificates = inp.certificates ∧ out.sslPolicy = inp.sslPolicy := by
    intro inp out hok
    injection hok with hok
    subst hok
    exact ⟨by simp, rfl, rfl, rfl, rfl⟩
  obtain ⟨out, h1, h2, h3, h4, h5, h6⟩ :=
    (claim4_create_mirrors_desired lC4 cpEcho optsW c4d rC4 rfl rfl hech rfl).1 rfl
  have hx : some out = some c4out := h1.symm.trans rfl
  injection hx with hx
  subst hx
  exact ⟨rfl, rfl, h1, h2, h3, h4, h5, h6⟩

/-- C4 counterexample: a failing create surfaces the error but has already
mutated the desired snapshot in place. -/
theorem claim4_counterexample :
    ((lC4.create cpFail optsW).map fun r => (r.err, r.state.ls.desired)) =
      some (some "boom", some { c4d with loadBalancerArn := some "lb-arn" }) ∧
    some { c4d with loadBalancerArn := some "lb-arn" } ≠ lC4.ls.desired := by
  constructor
  · rfl
  · decide

/-- C5 (amended): the desired constructor builds protocol HTTP by default,
upgrading to HTTPS and attaching the certificate exactly when a certificate
is supplied and the scheme is HTTPS; the SSL policy is attached whenever
one is supplied and the scheme is HTTPS, independent of the certificate;
the default action is always a single forward action with no target
group.  (The claim as frozen ties the SSL policy to the certificate being
supplied — see the counterexample.) -/
theorem claim5_new_desired_listener (o : NewDesiredListenerOptions) :
    ∃ d, (NewDesiredListener o).ls.desired = some d ∧
      (NewDesiredListener o).ls.current = none ∧
      d.port = some o.port.port ∧
      d.listenerArn = none ∧
      d.protocol = some (if o.certificateArn.isSome ∧ o.port.scheme = "HTTPS"
        then "HTTPS" else "HTTP") ∧
      d.certificates = (if o.certificateArn.isSome ∧ o.port.scheme = "HTTPS"
        then [{ certificateArn := o.certificateArn }] else []) ∧
      d.sslPolicy = (if o.sslPolicy.isSome ∧ o.port.scheme = "HTTPS"
        then o.sslPolicy else none) ∧
      d.defaultActions = [{ typ := some "forward", targetGroupArn := none }] := by
  by_cases hc : o.certificateArn.isSome <;>
    by_cases hs : o.sslPolicy.isSome <;>
      by_cases hh : o.port.scheme = "HTTPS" <;>
        simp [NewDesiredListener, hc, hs, hh]

/-- C5 counterexample: with scheme HTTPS, an SSL policy and no certificate,
the built snapshot keeps protocol HTTP and no certificate yet carries the
SSL policy, contradicting the claim that the policy is attached only when
both a certificate reference is supplied and the scheme is HTTPS. -/
theorem claim5_counterexample :
    ((NewDesiredListener c5o).ls.desired.map
        fun d => (d.protocol, d.certificates, d.sslPolicy)) =
      some (some "HTTP", [], some "ELBSecurityPolicy-2016-08") ∧
    c5o.certificateArn = none := ⟨rfl, rfl⟩

/-- C6: with current absent, modify delegates to create: both produce the
same state change, control-plane request and returned error. -/
theorem claim6_modify_self_heal (l : Listener) (cp : ControlPlane) (o : ReconcileOptions)
    (h : l.ls.current = none) : l.modify cp o = l.create cp o := by
  unfold Listener.modify
  rw [h]

/-- C6 witness: the delegation at a concrete desired-only listener. -/
theorem claim6_modify_self_heal_witness :
    lDesiredOnly.ls.current = none ∧
    lDesiredOnly.modify cpFail optsW = lDesiredOnly.create cpFail optsW :=
  ⟨rfl, claim6_modify_self_heal lDesiredOnly cpFail optsW rfl⟩

/-- C7: a successful delete issues exactly one remove call addressed by the
current snapshot ARN, sets `deleted := true` and leaves every other field
(including `current`) unchanged; with both snapshots absent, Reconcile
issues no control-plane call, returns nil and leaves the state
unchanged. -/
theorem claim7_delete_frame (cp : ControlPlane) (o : ReconcileOptions) (l : Listener)
    (c : ElbListener) :
    (∀ r, l.ls.current = some c → l.delete cp o = some r → r.err = none →
      r.calls = [CPCall.removeCall c.listenerArn] ∧
      cp.removeListener c.listenerArn = none ∧
      r.state = { l with deleted := true }) ∧
    (∀ r, l.ls.desired = none → l.ls.current = none → l.Reconcile cp o = some r →
      r.calls = [] ∧ r.err = none ∧ r.state = l) := by
  constructor
  · intro r hc h herr
    simp only [Listener.delete, hc] at h
    split at h
    · injection h with h; subst h; simp at herr
    · rename_i hrm
      injection h with h; subst h
      exact ⟨rfl, hrm, rfl⟩
  · intro r hd hcn h
    simp only [Listener.Reconcile, hd, hcn] at h
    injection h with h; subst h
    exact ⟨rfl, rfl, rfl⟩

/-- C7 witness: a concrete successful delete on a current-only listener. -/
theorem claim7_delete_frame_witness :
    rDel.calls = [CPCall.removeCall c3c.listenerArn] ∧
    cpEcho.removeListener c3c.listenerArn = none ∧
    rDel.state = { NewCurrentListener c3c with deleted := true } :=
  (claim7_delete_frame cpEcho optsW (NewCurrentListener c3c) c3c).1 rDel rfl rfl rfl

/-- C8: with both snapshots present, a default rule and a non-empty desired
action list, needsModification first writes the freshly resolved
target-group ARN into the desired default action (the same resolution
formula create uses), and a mismatch in that target group alone — all
other compared fields equal — makes it return true. -/
theorem claim8_resolves_target_group (l : Listener) (o : ReconcileOptions) (dr : Rule)
    (c d : ElbListener) (a : Action) (rest : List Action) (li : Listener) (b : Bool)
    (hc : l.ls.current = some c) (hd : l.ls.desired = some d)
    (hr : l.rules.defaultRule = some dr) (ha : d.defaultActions = a :: rest)
    (h : l.needsModification (some o) = some (li, b)) :
    li.ls.desired = some { d with defaultActions :=
      { a with targetGroupArn := dr.targetGroupArn o.targetGroups } :: rest } ∧
    (c.port = d.port → c.protocol = d.protocol → c.certificates = d.certificates →
      c.sslPolicy = d.sslPolicy → rest = [] → ∀ ca, c.defaultActions = [ca] →
      ca.targetGroupArn ≠ dr.targetGroupArn o.targetGroups → b = true) := by
  obtain ⟨hres, hcomp⟩ := needsMod_decomp h
  have hdes := resolve_writes hr hd ha hres
  refine ⟨hdes, ?_⟩
  intro hport hproto hcerts hssl hrest ca hca hne
  subst hrest
  have hlic : li.ls.current = some c := (needsModResolve_pres hres).1.trans hc
  have hiff := compare_iff hlic hdes hcomp
  cases b with
  | true => rfl
  | false =>
    exfalso
    have hcj := hiff.mp rfl
    have hact := hcj.2.2.2.1
    rw [hca] at hact
    injection hact with h1 _
    exact hne (congrArg Action.targetGroupArn h1)

/-- C8 witness: a stale current target group alone flips the diff to true,
and the resolved ARN is written into the desired snapshot. -/
theorem claim8_resolves_target_group_witness :
    lC8.needsModification (some optsW) = some (lC8res, true) ∧
    lC8res.ls.desired = some { desiredHTTP with defaultActions :=
      [{ forwardAction with targetGroupArn := drW.targetGroupArn optsW.targetGroups }] } :=
  ⟨rfl, (claim8_resolves_target_group lC8 optsW drW c8c desiredHTTP forwardAction [] lC8res true
    rfl rfl rfl rfl rfl).1⟩

/-- C9: needsModification is not observation-only: with a default rule
present it writes the freshly resolved target-group ARN into the desired
default action in place; concretely, a call can return false while the
desired snapshot differs afterwards, and Reconcile then performs no
control-plane call yet its final state carries the mutated desired
snapshot. -/
theorem claim9_mutates_desired :
    (∀ (l : Listener) (o : ReconcileOptions) (dr : Rule) (d : ElbListener)
        (a : Action) (rest : List Action) (li : Listener) (b : Bool),
      l.rules.defaultRule = some dr → l.ls.desired = some d →
      d.defaultActions = a :: rest → l.needsModification (some o) = some (li, b) →
      li.ls.desired = some { d with defaultActions :=
        { a with targetGroupArn := dr.targetGroupArn o.targetGroups } :: rest }) ∧
    lC9.needsModification (some optsW) = some (lC9res, false) ∧
    lC9res.ls.desired ≠ lC9.ls.desired ∧
    lC9.Reconcile cpFail optsW =
      some { state := lC9res, calls := [], events := [], err := none } := by
  refine ⟨?_, ?_, ?_, ?_⟩
  · intro l o dr d a rest li b hr hd ha h
    exact resolve_writes hr hd ha (needsMod_decomp h).1
  · rfl
  · decide
  · rfl

/-- C9 witness: the in-place write at the concrete no-op scenario. -/
theorem claim9_mutates_desired_witness :
    lC9res.ls.desired = some { desiredHTTP with defaultActions :=
      [{ forwardAction with targetGroupArn := drW.targetGroupArn optsW.targetGroups }] } :=
  claim9_mutates_desired.1 lC9 optsW drW desiredHTTP forwardAction [] lC9res false rfl rfl rfl rfl

/-- C10 (amended): a defined needsModification call requires desired present
with a non-empty default-action list, or nil options, or no default rule
(necessity); with a default rule and non-nil options, an absent desired
faults before the nil checks; and Reconcile never faults when the desired
snapshot carries at least one default action (as every constructor-built
desired snapshot does).  (The claim as frozen says every Reconcile call
site satisfies the precondition merely because the desired-absent case is
dispatched earlier; an in-range desired with an empty action list still
faults — see the counterexample.) -/
theorem claim10_needsMod_precondition :
    (∀ (l : Listener) (ro : Option ReconcileOptions) (li : Listener) (b : Bool),
      l.needsModification ro = some (li, b) →
      (∃ d, l.ls.desired = some d ∧ d.defaultActions ≠ []) ∨ ro = none ∨
        l.rules.defaultRule = none) ∧
    (∀ (l : Listener) (o : ReconcileOptions) (dr : Rule),
      l.rules.defaultRule = some dr → l.ls.desired = none →
      l.needsModification (some o) = none) ∧
    (∀ (l : Listener) (cp : ControlPlane) (o : ReconcileOptions) (d : ElbListener),
      l.ls.desired = some d → d.defaultActions ≠ [] → l.Reconcile cp o ≠ none) := by
  refine ⟨?_, ?_, ?_⟩
  · intro l ro li b h
    rcases ro with _ | o
    · exact Or.inr (Or.inl rfl)
    rcases hrule : l.rules.defaultRule with _ | dr
    · exact Or.inr (Or.inr rfl)
    rcases hdes : l.ls.desired with _ | d
    · exfalso
      have hres := (needsMod_decomp h).1
      simp [Listener.needsModResolve, hrule, hdes] at hres
    rcases hacts : d.defaultActions with _ | ⟨a, rest⟩
    · exfalso
      have hres := (needsMod_decomp h).1
      simp [Listener.needsModResolve, hrule, hdes, hacts] at hres
    · exact Or.inl ⟨d, rfl, by rw [hacts]; simp⟩
  · intro l o dr hr hdn
    simp [Listener.needsModification, Listener.needsModResolve, hr, hdn]
  · intro l cp o d hd hact hnone
    unfold Listener.Reconcile at hnone
    split at hnone
    · exact Option.noConfusion hnone
    · rename_i hd2 _
      rw [hd] at hd2
      exact Option.noConfusion hd2
    · split at hnone
      · rename_i hcre
        exact create_ne_none hd hact hcre
      · split at hnone <;> exact Option.noConfusion hnone
    · rename_i dval cval hd2 hc2
      split at hnone
      · rename_i hnm
        exact needsMod_ne_none hc2 hd hact hnm
      · rename_i li hnm
        split at hnone
        · rename_i hmod
          have hlic := (needsMod_pres hnm).1.trans hc2
          obtain ⟨d2, hlid⟩ := resolve_desired_some hd (needsMod_decomp hnm).1
          exact modify_ne_none hlic hlid hmod
        · split at hnone <;> exact Option.noConfusion hnone
      · exact Option.noConfusion hnone

/-- C10 counterexample: with desired present but carrying no default action
and a default rule present, Reconcile reaches the dereference and faults
even though the desired-absent case was dispatched earlier. -/
theorem claim10_counterexample :
    lC10.Reconcile cpFail optsW = none ∧ lC10.ls.desired ≠ none := by
  exact ⟨rfl, by decide⟩

/-- C10 witness: the call-site safety part applied to a well-formed
listener. -/
theorem claim10_needsMod_precondition_witness :
    desiredHTTP.defaultActions ≠ [] ∧ lDesiredOnly.Reconcile cpEcho optsW ≠ none :=
  ⟨by decide, claim10_needsMod_precondition.2.2 lDesiredOnly cpEcho optsW desiredHTTP rfl (by decide)⟩

end AlbLs
